import Mathlib

/-!
# Verification development for the bybit-options-roller core

A shallow embedding of the repository's core code paths, translated from the
Go source:

* `internal/domain/symbol.go`   — option-symbol parsing, expiry parsing,
  next-strike selection (`FindNextStrike`);
* `internal/domain/models.go`   — task aggregate, `ShouldRoll`;
* `internal/infrastructure/database/repository.go` — the optimistic-locking
  task-store operations (`UpdateTaskState`, `UpdateTaskSymbol`,
  `RegisterError`);
* `internal/usecase/roller.go`  — the roll saga (`ExecuteRoll`,
  `processLeg1`, `processLeg2`, `calculateSafeLimitPrice`);
* `internal/infrastructure/bybit/market_stream.go` — ticker price
  extraction.

Modelling conventions:

* `github.com/shopspring/decimal` values are embedded as `Dec`, a pair of an
  integer mantissa and a non-negative base-10 scale (value = num / 10^scale).
  This is the library's own representation restricted to non-positive
  exponents, which covers every value producible here (values parsed from
  decimal strings without exponent notation, and their sums, differences and
  products).  `Add`/`Sub` rescale to the larger scale, `Mul` adds scales,
  comparisons cross-rescale — exactly the library's exact (unrounded)
  arithmetic.  `decimal.NewFromFloat(0.20)` yields exactly 2/10 because the
  library converts through the shortest uniquely-roundtripping decimal
  string of the float ("0.2").
* Go `error` results are `Option String` (`none` = nil): only the message
  text matters (the repository classifies errors by substring).
* Go contexts are a constant `Bool` flag (`true` = cancelled); cancellation
  never flips mid-run in this sequential model.
* The exchange is a record of pure functions (`World`): the spec declares
  exchange calls "stateless per call", so one run sees deterministic
  responses.  The current wall-clock instant is a `World` field, in minutes
  on a proleptic-Gregorian scale.
* The task store is the single row of the task under consideration; the
  database itself is assumed reachable (only optimistic-lock contention is
  modelled as a repository failure, the distinguished error the code
  produces with `RowsAffected() == 0`).
* The unbounded leg-2 retry loop is embedded with explicit fuel: `none`
  means the run did not finish within the given fuel.
-/

/-! ## Decimals (shopspring/decimal) -/

/-- An exact base-10 decimal: value = `num / 10^scale`.  Mirrors
`decimal.Decimal`'s (value, exp) pair with `exp = -scale ≤ 0`. -/
structure Dec where
  num : Int
  scale : Nat
deriving DecidableEq, Repr

/-- Rescale a mantissa from scale `s` up to scale `t ≥ s`. -/
def Dec.rescaleNum (n : Int) (s t : Nat) : Int :=
  n * (10 : Int) ^ (t - s)

/-- `decimal.Decimal.Add`: rescale both operands to the larger scale, add
mantissas. -/
def Dec.add (a b : Dec) : Dec :=
  let t := max a.scale b.scale
  ⟨Dec.rescaleNum a.num a.scale t + Dec.rescaleNum b.num b.scale t, t⟩

/-- `decimal.Decimal.Sub`. -/
def Dec.sub (a b : Dec) : Dec :=
  let t := max a.scale b.scale
  ⟨Dec.rescaleNum a.num a.scale t - Dec.rescaleNum b.num b.scale t, t⟩

/-- `decimal.Decimal.Mul`: multiply mantissas, add scales (exact). -/
def Dec.mul (a b : Dec) : Dec :=
  ⟨a.num * b.num, a.scale + b.scale⟩

/-- `decimal.Decimal.Cmp`-style order: compare cross-rescaled mantissas. -/
def Dec.lt (a b : Dec) : Bool :=
  let t := max a.scale b.scale
  decide (Dec.rescaleNum a.num a.scale t < Dec.rescaleNum b.num b.scale t)

/-- Value equality (`decimal.Decimal.Equal`). -/
def Dec.valEq (a b : Dec) : Bool :=
  let t := max a.scale b.scale
  decide (Dec.rescaleNum a.num a.scale t = Dec.rescaleNum b.num b.scale t)

/-- `a ≤ b` on values (`GreaterThanOrEqual`/`LessThanOrEqual` are derived). -/
def Dec.le (a b : Dec) : Bool :=
  let t := max a.scale b.scale
  decide (Dec.rescaleNum a.num a.scale t ≤ Dec.rescaleNum b.num b.scale t)

/-- `decimal.Decimal.IsZero`: the value is zero iff the mantissa is. -/
def Dec.isZero (a : Dec) : Bool := decide (a.num = 0)

/-- The rational value of a decimal (used only to state exactness). -/
def Dec.val (a : Dec) : ℚ := (a.num : ℚ) / (10 : ℚ) ^ a.scale

/-- An integer decimal literal at scale 0 (`decimal.NewFromInt`). -/
def Dec.ofInt (n : Int) : Dec := ⟨n, 0⟩

/-! ### Decimal strings -/

/-- Digits of a natural number, most significant first. -/
def natDigits (n : Nat) : List Char :=
  (Nat.toDigits 10 n)

/-- Trim trailing zero characters. -/
def trimTrailingZeros : List Char → List Char
  | [] => []
  | c :: cs =>
    match trimTrailingZeros cs with
    | [] => if c = '0' then [] else [c]
    | rest => c :: rest

/-- `decimal.Decimal.String`: render `num / 10^scale`, trimming trailing
zeros of the fractional part (the library's `String` calls
`string(trimTrailingZeros: true)`). -/
def Dec.toStr (a : Dec) : String :=
  let sign := if a.num < 0 then "-" else ""
  let n := a.num.natAbs
  if a.scale = 0 then sign ++ String.mk (natDigits n)
  else
    let ds := natDigits n
    let ds := if ds.length < a.scale + 1 then
        List.replicate (a.scale + 1 - ds.length) '0' ++ ds else ds
    let intPart := ds.take (ds.length - a.scale)
    let fracPart := trimTrailingZeros (ds.drop (ds.length - a.scale))
    if fracPart.isEmpty then sign ++ String.mk intPart
    else sign ++ String.mk intPart ++ "." ++ String.mk fracPart

/-- Parse an unsigned digit run. -/
def parseDigitsAux : List Char → Nat → Option Nat
  | [], acc => some acc
  | c :: cs, acc =>
    if c.isDigit then parseDigitsAux cs (acc * 10 + (c.toNat - 48)) else none

/-- Parse a non-empty unsigned digit run. -/
def parseDigits : List Char → Option Nat
  | [] => none
  | cs => parseDigitsAux cs 0

/-- Split a character list at the first `'.'`. -/
def splitAtDot : List Char → (List Char × Option (List Char))
  | [] => ([], none)
  | c :: cs =>
    if c = '.' then ([], some cs)
    else
      let (a, b) := splitAtDot cs
      (c :: a, b)

/-- `decimal.NewFromString`, restricted to plain signed decimal literals
(`[+-]?digits[.digits]`).  Exponent notation, which no repository input
uses, is not modelled. -/
def parseGoDecimal (cs : List Char) : Option Dec :=
  match cs with
  | [] => none
  | '-' :: rest => (parseGoDecimalUnsigned rest).map (fun d => ⟨-d.num, d.scale⟩)
  | '+' :: rest => parseGoDecimalUnsigned rest
  | _ => parseGoDecimalUnsigned cs
where
  parseGoDecimalUnsigned (cs : List Char) : Option Dec :=
    match splitAtDot cs with
    | (intPart, none) => (parseDigits intPart).map (fun n => ⟨(n : Int), 0⟩)
    | (intPart, some fracPart) =>
      match parseDigits intPart, parseDigits fracPart with
      | some i, some f => some ⟨(i : Int) * (10 : Int) ^ fracPart.length + f, fracPart.length⟩
      | _, _ => none

deriving instance DecidableEq for Except

namespace Roller

/-! ## Option symbols (`internal/domain/symbol.go`) -/

/-- `domain.OptionSymbol` — the parsed ticker. -/
structure OptionSymbol where
  original : String
  baseCoin : String
  expiry : String
  strike : Dec
  side : String
deriving DecidableEq, Repr

/-- `strings.Split(s, "-")`. -/
def splitDashAux : List Char → List Char → List (List Char)
  | [], acc => [acc.reverse]
  | c :: cs, acc =>
    if c = '-' then acc.reverse :: splitDashAux cs [] else splitDashAux cs (c :: acc)

/-- `strings.Split` on `"-"`, as used by `ParseOptionSymbol`. -/
def goSplitDash (s : String) : List (List Char) := splitDashAux s.toList []

/-- `domain.ParseOptionSymbol`: split on `-`, require at least 4 parts,
parse the strike (part 3) as a decimal. -/
def parseOptionSymbol (s : String) : Except String OptionSymbol :=
  match goSplitDash s with
  | p0 :: p1 :: p2 :: p3 :: _ =>
    match parseGoDecimal p2 with
    | none => .error ("invalid strike: " ++ String.mk p2)
    | some strike =>
      .ok ⟨s, String.mk p0, String.mk p1, strike, String.mk p3⟩
  | _ => .error ("invalid symbol format: " ++ s)

/-! ### Expiry parsing (`ParseExpirationFromSymbol`, Go `time.Parse("02Jan06", _)`) -/

/-- Numeric value of a decimal digit character. -/
def digitVal (c : Char) : Option Nat :=
  if c.isDigit then some (c.toNat - 48) else none

/-- Go's case-insensitive 3-letter English month lookup. -/
def monthOfChars (a b c : Char) : Option Nat :=
  let s := String.mk [a.toLower, b.toLower, c.toLower]
  if s = "jan" then some 1 else if s = "feb" then some 2
  else if s = "mar" then some 3 else if s = "apr" then some 4
  else if s = "may" then some 5 else if s = "jun" then some 6
  else if s = "jul" then some 7 else if s = "aug" then some 8
  else if s = "sep" then some 9 else if s = "oct" then some 10
  else if s = "nov" then some 11 else if s = "dec" then some 12
  else none

def isLeapYear (y : Nat) : Bool :=
  (y % 4 = 0 && y % 100 ≠ 0) || y % 400 = 0

def daysInMonth (y m : Nat) : Nat :=
  if m = 2 then (if isLeapYear y then 29 else 28)
  else if m = 4 || m = 6 || m = 9 || m = 11 then 30
  else 31

/-- Days in the months before month `m` of year `y`. -/
def monthDaysBefore (y m : Nat) : Nat :=
  (List.range (m - 1)).foldl (fun acc i => acc + daysInMonth y (i + 1)) 0

/-- Minutes at 00:00 UTC of a Gregorian date, on an absolute day count from
year 1 (ordering-faithful model of Go's monotone time scale). -/
def dateToMinutes (y m d : Nat) : Int :=
  ((365 * (y - 1) + (y - 1) / 4 - (y - 1) / 100 + (y - 1) / 400
    + monthDaysBefore y m + (d - 1)) * 1440 : Nat)

/-- Go `time.Parse("02Jan06", s)`: exactly two day digits, a case-insensitive
3-letter month, two year digits (`≥ 69 → 19yy`, else `20yy`), with day-range
validation.  Returns minutes at 00:00 UTC of that day. -/
def goTimeParse02Jan06 (s : String) : Option Int :=
  match s.toList with
  | [d1, d2, m1, m2, m3, y1, y2] =>
    match digitVal d1, digitVal d2, monthOfChars m1 m2 m3, digitVal y1, digitVal y2 with
    | some a, some b, some m, some c, some d =>
      let day := a * 10 + b
      let yy := c * 10 + d
      let y := if yy ≥ 69 then 1900 + yy else 2000 + yy
      if 1 ≤ day ∧ day ≤ daysInMonth y m then some (dateToMinutes y m day) else none
    | _, _, _, _, _ => none
  | _ => none

/-- `domain.ParseExpirationFromSymbol`: parse the symbol, parse its expiry
field with layout `02Jan06`, and add 8 hours (the 08:00 UTC exchange
convention), in minutes. -/
def parseExpirationFromSymbol (s : String) : Option Int :=
  match parseOptionSymbol s with
  | .error _ => none
  | .ok os =>
    match goTimeParse02Jan06 os.expiry with
    | none => none
    | some m => some (m + 8 * 60)

/-! ### Next-strike selection (`OptionSymbol.FindNextStrike`) -/

/-- Ascending insertion of one element (value order). -/
def insertAscDec (x : Dec) : List Dec → List Dec
  | [] => [x]
  | y :: ys => if Dec.lt x y then x :: y :: ys else y :: insertAscDec x ys

/-- `sort.Slice(strikes, LessThan)`: the ascending reordering of the list
(insertion sort produces the same value sequence). -/
def sortAscDec (l : List Dec) : List Dec := l.foldr insertAscDec []

/-- First index whose element is value-equal to `x`, scanning left to
right (the Go search loop over the sorted slice). -/
def findIdxEq (x : Dec) : List Dec → Option Nat
  | [] => none
  | y :: ys =>
    if Dec.valEq y x then some 0 else (findIdxEq x ys).map (· + 1)

/-- First element strictly greater than `x` (the Go fallback loop). -/
def firstGreater (x : Dec) : List Dec → Option Dec
  | [] => none
  | y :: ys => if Dec.lt x y then some y else firstGreater x ys

/-- Reassemble a ticker (`fmt.Sprintf("%s-%s-%s-%s", ...)`). -/
def fmtSymbol (base expiry : String) (strike : Dec) (side : String) : String :=
  base ++ "-" ++ expiry ++ "-" ++ Dec.toStr strike ++ "-" ++ side

/-- `OptionSymbol.FindNextStrike`: sort the chain ascending, locate the
current strike, and return the strike at `index + 1`; if the current strike
is absent, return the nearest strike strictly greater.  The `C`/`P` side is
used only to re-format the ticker — the selection itself never consults it. -/
def findNextStrike (os : OptionSymbol) (strikesList : List Dec) : Except String String :=
  let sorted := sortAscDec strikesList
  match findIdxEq os.strike sorted with
  | none =>
    match firstGreater os.strike sorted with
    | some s => .ok (fmtSymbol os.baseCoin os.expiry s os.side)
    | none => .error ("no higher strike available for " ++ os.original)
  | some i =>
    match sorted.get? (i + 1) with
    | none => .error "already at highest strike"
    | some nextStrike => .ok (fmtSymbol os.baseCoin os.expiry nextStrike os.side)

/-! ## Task aggregate (`internal/domain/models.go`) -/

/-- `domain.TaskState`. -/
inductive TaskState where
  | idle
  | rollInitiated
  | leg1Closed
  | leg2Opening
  | completed
  | failed
deriving DecidableEq, Repr

/-- The in-memory `domain.Task` snapshot carried through the saga (the
fields the saga reads or mutates). -/
structure Task where
  id : Int
  targetSide : String
  currentOptionSymbol : String
  underlyingSymbol : String
  currentQty : Dec
  triggerPrice : Dec
  status : TaskState
  version : Int
deriving DecidableEq, Repr

/-- `HasSuffix` over character lists. -/
def strEndsWith (s suf : String) : Bool :=
  suf.toList.isSuffixOf s.toList

/-- `Task.IsCallOption`: the option symbol ends in `-C`. -/
def Task.isCallOption (t : Task) : Bool :=
  strEndsWith t.currentOptionSymbol "-C"

/-- `Task.ShouldRoll`: status must be `IDLE`; a Call triggers at
`price ≥ trigger`, a Put at `price ≤ trigger`. -/
def Task.shouldRoll (t : Task) (currentUnderlyingPrice : Dec) : Bool :=
  if t.status ≠ TaskState.idle then false
  else if t.isCallOption then Dec.le t.triggerPrice currentUnderlyingPrice
  else Dec.le currentUnderlyingPrice t.triggerPrice

/-! ## Task store (`internal/infrastructure/database/repository.go`)

The store is the task's single persisted row.  The database is assumed
reachable, so the only repository failure modelled is the distinguished
optimistic-locking error the code returns when `RowsAffected() == 0`. -/

/-- The persisted task row (`tasks` table columns the saga touches). -/
structure Row where
  symbol : String
  qty : Dec
  status : TaskState
  version : Int
  lastError : Option String
  updatedAt : Int
deriving DecidableEq, Repr

/-- Repository errors: the contention error is distinguished from plain
database failures (which the model does not produce). -/
inductive RepoErr where
  | contention
  | dbFailure
deriving DecidableEq, Repr

/-- The Go error message of a repository error, as seen by the saga. -/
def RepoErr.msg : RepoErr → String
  | .contention => "optimistic locking failed"
  | .dbFailure => "db exec error"

/-- `TaskRepository.UpdateTaskState`:
`UPDATE tasks SET status, version = version + 1, updated_at = NOW()
 WHERE id AND version = $observed`; zero rows affected yields the
contention error and leaves the row untouched. -/
def updateTaskState (row : Row) (newState : TaskState) (version : Int) (now : Int) :
    Option RepoErr × Row :=
  if row.version = version then
    (none, { row with status := newState, version := row.version + 1, updatedAt := now })
  else
    (some RepoErr.contention, row)

/-- `TaskRepository.UpdateTaskSymbol`:
`UPDATE tasks SET target_symbol, current_qty, status = 'IDLE',
 version = version + 1, updated_at = NOW() WHERE id AND version = $observed`. -/
def updateTaskSymbol (row : Row) (newSymbol : String) (newQty : Dec) (version : Int) (now : Int) :
    Option RepoErr × Row :=
  if row.version = version then
    (none, { row with symbol := newSymbol, qty := newQty, status := TaskState.idle,
                      version := row.version + 1, updatedAt := now })
  else
    (some RepoErr.contention, row)

/-- `pat` occurs at the head of `s`. -/
def leadsList : List Char → List Char → Bool
  | [], _ => true
  | _ :: _, [] => false
  | p :: ps, c :: cs => p = c && leadsList ps cs

/-- `pat` occurs somewhere in `s`. -/
def hasSubList (pat : List Char) : List Char → Bool
  | [] => pat.isEmpty
  | c :: cs => leadsList pat (c :: cs) || hasSubList pat cs

/-- `strings.Contains`. -/
def goContains (s pat : String) : Bool := hasSubList pat.toList s.toList

/-- The transient-error test of `TaskRepository.RegisterError`: the message
contains `timeout`, `deadline exceeded`, `502 Bad Gateway` or
`504 Gateway Timeout`. -/
def isTransientMsg (msg : String) : Bool :=
  goContains msg "timeout" || goContains msg "deadline exceeded" ||
  goContains msg "502 Bad Gateway" || goContains msg "504 Gateway Timeout"

/-- `TaskRepository.RegisterError`:
`UPDATE tasks SET last_error, status, updated_at = NOW() WHERE id` — no
version condition; transient messages rewind to `IDLE`, all others set
`FAILED`. -/
def registerError (row : Row) (msg : String) (now : Int) : Row :=
  { row with
    lastError := some msg
    status := if isTransientMsg msg then TaskState.idle else TaskState.failed
    updatedAt := now }

/-! ## Exchange port and order requests -/

/-- `domain.Position` (the fields the saga reads). -/
structure Position where
  symbol : String
  side : String
  qty : Dec
deriving DecidableEq, Repr

/-- `domain.OrderRequest`. -/
structure OrderRequest where
  symbol : String
  side : String
  orderType : String
  qty : Dec
  price : Dec
  timeInForce : String
  reduceOnly : Bool
  orderLinkID : String
deriving DecidableEq, Repr

/-- The environment of one saga run: the exchange adapter (stateless per
call, per the port contract) and the current instant (minutes, used both
for the expiry gate and as the store's `NOW()`). -/
structure World where
  now : Int
  getPosition : String → Except String Position
  getMarkPrice : String → Except String Dec
  getOptionStrikes : String → String → Except String (List Dec)
  placeOrder : OrderRequest → Except String String

/-! ## The roll saga (`internal/usecase/roller.go`) -/

/-- `RollerService.calculateSafeLimitPrice`: buy at `mark × (1 + 0.20)`,
otherwise sell at `mark × (1 − 0.20)` (`decimal.NewFromFloat(0.20)` is
exactly 2/10). -/
def calculateSafeLimitPrice (side : String) (markPrice : Dec) : Dec :=
  let slippageFactor : Dec := ⟨2, 1⟩
  if side = "Buy" then
    Dec.mul markPrice (Dec.add (Dec.ofInt 1) slippageFactor)
  else
    Dec.mul markPrice (Dec.sub (Dec.ofInt 1) slippageFactor)

/-- The order trace: every request handed to `PlaceOrder`, in submission
order (a submission is recorded whether or not the exchange accepted it). -/
abbrev Trace := List OrderRequest

/-- `processLeg1` after the expiry gate: position probe, zero-quantity
completion, mark-price probe, aggressive-limit close order
(`close-{id}-v{version}`, IOC, reduce-only), and the `LEG1_CLOSED`
checkpoint (whose failure is logged and swallowed, without the local
version bump). -/
def leg1Main (w : World) (t : Task) (row : Row) (tr : Trace) :
    Option String × Task × Row × Trace :=
  match w.getPosition t.currentOptionSymbol with
  | .error e => (some ("fetch position: " ++ e), t, row, tr)
  | .ok position =>
    if position.qty.isZero then
      match updateTaskState row TaskState.completed t.version w.now with
      | (none, row1) => (none, t, row1, tr)
      | (some re, row1) => (some re.msg, t, row1, tr)
    else
      match w.getMarkPrice t.currentOptionSymbol with
      | .error e => (some ("failed to get mark price for leg1: " ++ e), t, row, tr)
      | .ok markPrice =>
        let closeSide := if position.side = "Buy" then "Sell" else "Buy"
        let t1 := if t.targetSide = "" then { t with targetSide := position.side } else t
        let safePrice := calculateSafeLimitPrice closeSide markPrice
        let req : OrderRequest :=
          { symbol := t.currentOptionSymbol
            side := closeSide
            orderType := "Limit"
            qty := position.qty
            price := safePrice
            timeInForce := "IOC"
            reduceOnly := true
            orderLinkID := "close-" ++ toString t.id ++ "-v" ++ toString t.version }
        let tr1 := tr ++ [req]
        match w.placeOrder req with
        | .error e => (some e, t1, row, tr1)
        | .ok _ =>
          match updateTaskState row TaskState.leg1Closed t.version w.now with
          | (none, row1) => (none, { t1 with version := t1.version + 1 }, row1, tr1)
          | (some _, _) => (none, t1, row, tr1)

/-- `RollerService.processLeg1`: default an empty `TargetSide` to `Sell`,
run the expiry gate (strictly past expiry + 5 minutes transitions to
`COMPLETED` and returns; an unparseable expiry is logged and ignored), then
close the position via `leg1Main`. -/
def processLeg1 (w : World) (t : Task) (row : Row) (tr : Trace) :
    Option String × Task × Row × Trace :=
  let t0 := if t.targetSide = "" then { t with targetSide := "Sell" } else t
  match parseExpirationFromSymbol t.currentOptionSymbol with
  | some expiryTime =>
    if w.now > expiryTime + 5 then
      match updateTaskState row TaskState.completed t.version w.now with
      | (none, row1) => (none, t0, row1, tr)
      | (some re, row1) => (some re.msg, t0, row1, tr)
    else leg1Main w t0 row tr
  | none => leg1Main w t0 row tr

/-- The leg-2 opening order (`open-{id}-v{version}`, IOC aggressive limit in
the task's target side, quantity `task.CurrentQty`). -/
def mkOpenReq (t : Task) (nextSymbolStr : String) (nextMarkPrice : Dec) : OrderRequest :=
  { symbol := nextSymbolStr
    side := t.targetSide
    orderType := "Limit"
    qty := t.currentQty
    price := calculateSafeLimitPrice t.targetSide nextMarkPrice
    timeInForce := "IOC"
    reduceOnly := false
    orderLinkID := "open-" ++ toString t.id ++ "-v" ++ toString t.version }

/-- The straight-line body of `processLeg2` (steps 1-5): parse the current
symbol, fetch the chain, pick the next strike, fetch its mark price, place
the opening order, and attempt the symbol-swap finalization.
Result `.ok true` = finalization committed (the Go code then falls into the
retry loop); `.ok false` = finalization failed, logged, and swallowed (the
Go code returns nil immediately); `.error e` = one of steps 1-4 or the
order placement failed. -/
def leg2Body (w : World) (t : Task) (row : Row) (tr : Trace) :
    Except String Bool × Row × Trace :=
  match parseOptionSymbol t.currentOptionSymbol with
  | .error e => (.error ("parse symbol error: " ++ e), row, tr)
  | .ok currentSym =>
    match w.getOptionStrikes currentSym.baseCoin currentSym.expiry with
    | .error e => (.error ("failed to fetch option chain: " ++ e), row, tr)
    | .ok strikes =>
      match findNextStrike currentSym strikes with
      | .error e => (.error ("failed to find next strike: " ++ e), row, tr)
      | .ok nextSymbolStr =>
        match w.getMarkPrice nextSymbolStr with
        | .error e =>
          (.error ("failed to get mark price for leg2 (" ++ nextSymbolStr ++ "): " ++ e), row, tr)
        | .ok nextMarkPrice =>
          let req := mkOpenReq t nextSymbolStr nextMarkPrice
          let tr1 := tr ++ [req]
          match w.placeOrder req with
          | .error e => (.error e, row, tr1)
          | .ok _ =>
            match updateTaskSymbol row nextSymbolStr t.currentQty t.version w.now with
            | (none, row1) => (.ok true, row1, tr1)
            | (some _, _) => (.ok false, row, tr1)

mutual

/-- `RollerService.processLeg2`: the body, then — only after a committed
finalization — the retry loop.  `none` = fuel exhausted. -/
def processLeg2 : Nat → Bool → World → Task → Row → Trace →
    Option (Option String × Row × Trace)
  | 0, _, _, _, _, _ => none
  | fuel + 1, ctxCancelled, w, t, row, tr =>
    match leg2Body w t row tr with
    | (.error e, row1, tr1) => some (some e, row1, tr1)
    | (.ok false, row1, tr1) => some (none, row1, tr1)
    | (.ok true, row1, tr1) => leg2Loop fuel ctxCancelled w t row1 tr1

/-- The retry loop at the tail of `processLeg2`: stop with `ctx.Err()` when
the context is cancelled, re-invoke `processLeg2`, break on its success,
sleep 3 s and repeat on its failure. -/
def leg2Loop : Nat → Bool → World → Task → Row → Trace →
    Option (Option String × Row × Trace)
  | 0, _, _, _, _, _ => none
  | fuel + 1, ctxCancelled, w, t, row, tr =>
    if ctxCancelled then some (some "context canceled", row, tr)
    else
      match processLeg2 fuel ctxCancelled w t row tr with
      | none => none
      | some (none, row1, tr1) => some (none, row1, tr1)
      | some (some _, row1, tr1) => leg2Loop fuel ctxCancelled w t row1 tr1

end

/-- `RollerService.ExecuteRoll`: recovery short-circuit for `LEG1_CLOSED`,
trigger check, the `IDLE → ROLL_INITIATED` optimistic lock (contention
returns nil), leg 1 (a failure is registered through `RegisterError` with
the `leg 1 failed:` wrapping and the original error is returned), then
leg 2 (a failure marks the task `FAILED`, ignoring the update's outcome,
and returns the fatal wrapped error). -/
def executeRoll (fuel : Nat) (ctxCancelled : Bool) (w : World) (t : Task) (row : Row)
    (tr : Trace) (currentPrice : Dec) :
    Option (Option String × Task × Row × Trace) :=
  if t.status = TaskState.leg1Closed then
    match processLeg2 fuel ctxCancelled w t row tr with
    | none => none
    | some (r, row1, tr1) => some (r, t, row1, tr1)
  else if ¬ t.shouldRoll currentPrice then some (none, t, row, tr)
  else
    match updateTaskState row TaskState.rollInitiated t.version w.now with
    | (some _, _) => some (none, t, row, tr)
    | (none, row1) =>
      let t1 := { t with version := t.version + 1 }
      match processLeg1 w t1 row1 tr with
      | (some e, t2, row2, tr2) =>
        (some (some e, t2, registerError row2 ("leg 1 failed: " ++ e) w.now, tr2))
      | (none, t2, row2, tr2) =>
        match processLeg2 fuel ctxCancelled w t2 row2 tr2 with
        | none => none
        | some (none, row3, tr3) => some (none, t2, row3, tr3)
        | some (some e, row3, tr3) =>
          let row4 := (updateTaskState row3 TaskState.failed t2.version w.now).2
          some (some ("FATAL: Leg 2 failed after Leg 1 closed! Position is naked. Err: " ++ e),
                t2, row4, tr3)

/-! ## Market-stream price extraction
(`internal/infrastructure/bybit/market_stream.go`, `connectAndListen`) -/

/-- One entry of `WsTickerEvent.Data`. -/
structure TickerData where
  symbol : String
  lastPrice : Dec
  markPrice : Dec
deriving DecidableEq, Repr

/-- `domain.PriceUpdateEvent`. -/
structure PriceUpdateEvent where
  symbol : String
  price : Dec
  time : Int
  source : String
deriving DecidableEq, Repr

/-- The ticker-processing step of `connectAndListen`: for a message with a
non-empty topic and at least one data entry, take the first entry, prefer
its mark price and fall back to its last price when the mark is zero, and
emit `(symbol, price, now)` tagged `bybit-linear-ws`. -/
def extractPriceEvent (topic : String) (data : List TickerData) (now : Int) :
    Option PriceUpdateEvent :=
  match data with
  | [] => none
  | d :: _ =>
    if topic = "" then none
    else
      let price := if d.markPrice.isZero then d.lastPrice else d.markPrice
      some { symbol := d.symbol, price := price, time := now, source := "bybit-linear-ws" }

/-! ## Derived notions used by the statements -/

/-- The client order ids of a trace, in submission order. -/
def orderIds (tr : Trace) : List String := tr.map (·.orderLinkID)

/-- The next symbol leg 2 would target for a given held symbol, when the
parse, chain query and strike selection all succeed. -/
def nextSymbolOf (w : World) (sym : String) : Option String :=
  match parseOptionSymbol sym with
  | .error _ => none
  | .ok os =>
    match w.getOptionStrikes os.baseCoin os.expiry with
    | .error _ => none
    | .ok strikes =>
      match findNextStrike os strikes with
      | .error _ => none
      | .ok nx => some nx

/-- The row produced by a committed leg-2 finalization (`UpdateTaskSymbol`
success): new symbol, task quantity, status `IDLE`, version bumped. -/
def swapRow (w : World) (t : Task) (row : Row) (nx : String) : Row :=
  { row with symbol := nx, qty := t.currentQty, status := TaskState.idle,
             version := row.version + 1, updatedAt := w.now }

/-- The symbol-swap finalization of leg 2 committed between `row` and
`row1`. -/
def Swapped (w : World) (t : Task) (row row1 : Row) : Prop :=
  ∃ nx, nextSymbolOf w t.currentOptionSymbol = some nx ∧ row1 = swapRow w t row nx

/-! ## Concrete scenarios

Scenario 1 of the spec (§8): Call task `BTC-26DEC25-100000-C`, underlying
`BTCUSDT`, trigger 100000, qty 0.1, side Sell, `IDLE`, version 1; the price
event is 100500; the position probe returns qty 0.1 side Sell; the chain is
{99000, 100000, 101000, 102000}; every exchange and store call succeeds.
Mark prices: 500 for the held option, 300 for the next strike. -/

def oldSymbol : String := "BTC-26DEC25-100000-C"

def newSymbol : String := "BTC-26DEC25-101000-C"

/-- The all-successful exchange of scenario 1, observed on 1 Dec 2025
(before expiry). -/
def happyWorld : World :=
  { now := dateToMinutes 2025 12 1
    getPosition := fun _ => .ok ⟨oldSymbol, "Sell", ⟨1, 1⟩⟩
    getMarkPrice := fun s => .ok (if s = oldSymbol then ⟨500, 0⟩ else ⟨300, 0⟩)
    getOptionStrikes := fun _ _ => .ok [⟨99000, 0⟩, ⟨100000, 0⟩, ⟨101000, 0⟩, ⟨102000, 0⟩]
    placeOrder := fun _ => .ok "exchange-order-id" }

def happyTask : Task :=
  { id := 1, targetSide := "Sell", currentOptionSymbol := oldSymbol,
    underlyingSymbol := "BTCUSDT", currentQty := ⟨1, 1⟩, triggerPrice := ⟨100000, 0⟩,
    status := TaskState.idle, version := 1 }

def happyRow : Row :=
  { symbol := oldSymbol, qty := ⟨1, 1⟩, status := TaskState.idle, version := 1,
    lastError := none, updatedAt := 0 }

/-- Scenario 1 with the option-chain query failing instead: the first leg-2
failure after the `LEG1_CLOSED` checkpoint. -/
def chainFailWorld : World :=
  { happyWorld with getOptionStrikes := fun _ _ => .error "boom" }

/-- Scenario 1 observed on 11 Oct 2026, far past the 26 Dec 2025 expiry. -/
def expiredWorld : World :=
  { happyWorld with now := dateToMinutes 2026 10 11 }

/-- A `LEG1_CLOSED` recovery snapshot whose version (3) is stale against the
stored row. -/
def staleTask : Task :=
  { happyTask with status := TaskState.leg1Closed, version := 3 }

/-- The stored row behind `staleTask`: still `LEG1_CLOSED`, but already at
version 4. -/
def staleRow : Row :=
  { happyRow with status := TaskState.leg1Closed, version := 4 }

/-- A `LEG1_CLOSED` snapshot whose version matches the stored row — the
fully successful leg-2 run used to exhibit the duplicated opening order. -/
def leg2Task : Task :=
  { happyTask with status := TaskState.leg1Closed, version := 3 }

def leg2Row : Row :=
  { happyRow with status := TaskState.leg1Closed, version := 3 }

/-! ## Helper lemmas -/

theorem updateTaskState_eq (row : Row) (ns : TaskState) (v now : Int) (h : row.version = v) :
    updateTaskState row ns v now =
      (none, { row with status := ns, version := row.version + 1, updatedAt := now }) := by
  simp [updateTaskState, h]

theorem updateTaskState_ne (row : Row) (ns : TaskState) (v now : Int) (h : row.version ≠ v) :
    updateTaskState row ns v now = (some RepoErr.contention, row) := by
  simp [updateTaskState, h]

theorem updateTaskSymbol_ne (row : Row) (s : String) (q : Dec) (v now : Int)
    (h : row.version ≠ v) :
    updateTaskSymbol row s q v now = (some RepoErr.contention, row) := by
  simp [updateTaskSymbol, h]

theorem updateTaskSymbol_eq (row : Row) (s : String) (q : Dec) (v now : Int)
    (h : row.version = v) :
    updateTaskSymbol row s q v now =
      (none, { row with symbol := s, qty := q, status := TaskState.idle,
                        version := row.version + 1, updatedAt := now }) := by
  simp [updateTaskSymbol, h]

/-- Case analysis of one straight-line pass of `processLeg2`: either it
fails with the store untouched, or the finalization hit version contention
and was swallowed (store untouched, and the two versions must differ), or
the finalization committed the symbol swap — which happens exactly when the
observed version matches. -/
theorem leg2Body_spec (w : World) (t : Task) (row : Row) (tr : Trace)
    (r : Except String Bool) (row1 : Row) (tr1 : Trace)
    (hb : leg2Body w t row tr = (r, row1, tr1)) :
    (row1 = row ∧ ((∃ e, r = .error e) ∨ (r = .ok false ∧ t.version ≠ row.version))) ∨
    (r = .ok true ∧ t.version = row.version ∧ Swapped w t row row1) := by
  cases h1 : parseOptionSymbol t.currentOptionSymbol with
  | error e =>
    simp only [leg2Body, h1, Prod.mk.injEq] at hb
    obtain ⟨rfl, rfl, rfl⟩ := hb
    exact Or.inl ⟨rfl, Or.inl ⟨_, rfl⟩⟩
  | ok os =>
    cases h2 : w.getOptionStrikes os.baseCoin os.expiry with
    | error e =>
      simp only [leg2Body, h1, h2, Prod.mk.injEq] at hb
      obtain ⟨rfl, rfl, rfl⟩ := hb
      exact Or.inl ⟨rfl, Or.inl ⟨_, rfl⟩⟩
    | ok strikes =>
      cases h3 : findNextStrike os strikes with
      | error e =>
        simp only [leg2Body, h1, h2, h3, Prod.mk.injEq] at hb
        obtain ⟨rfl, rfl, rfl⟩ := hb
        exact Or.inl ⟨rfl, Or.inl ⟨_, rfl⟩⟩
      | ok nx =>
        cases h4 : w.getMarkPrice nx with
        | error e =>
          simp only [leg2Body, h1, h2, h3, h4, Prod.mk.injEq] at hb
          obtain ⟨rfl, rfl, rfl⟩ := hb
          exact Or.inl ⟨rfl, Or.inl ⟨_, rfl⟩⟩
        | ok m =>
          cases h5 : w.placeOrder (mkOpenReq t nx m) with
          | error e =>
            simp only [leg2Body, h1, h2, h3, h4, h5, Prod.mk.injEq] at hb
            obtain ⟨rfl, rfl, rfl⟩ := hb
            exact Or.inl ⟨rfl, Or.inl ⟨_, rfl⟩⟩
          | ok oid =>
            by_cases hv : row.version = t.version
            · simp only [leg2Body, h1, h2, h3, h4, h5,
                updateTaskSymbol_eq row nx t.currentQty t.version w.now hv,
                Prod.mk.injEq] at hb
              obtain ⟨rfl, rfl, rfl⟩ := hb
              refine Or.inr ⟨rfl, hv.symm, ⟨nx, ?_, ?_⟩⟩
              · simp [nextSymbolOf, h1, h2, h3]
              · simp [swapRow]
            · simp only [leg2Body, h1, h2, h3, h4, h5,
                updateTaskSymbol_ne row nx t.currentQty t.version w.now hv,
                Prod.mk.injEq] at hb
              obtain ⟨rfl, rfl, rfl⟩ := hb
              exact Or.inl ⟨rfl, Or.inr ⟨rfl, fun h => hv h.symm⟩⟩

/-- The store-row invariant of `processLeg2` and its retry loop, proved by
mutual induction on the fuel: any returned run either leaves the row as it
found it (and a nil result with an untouched row implies the observed
version was stale), or — only when the observed version matched — commits
exactly one symbol swap. -/
theorem leg2_row_cases (fuel : Nat) :
    (∀ c w t row tr r row1 tr1,
       processLeg2 fuel c w t row tr = some (r, row1, tr1) →
       (row1 = row ∧ (r = none → t.version ≠ row.version)) ∨
       (t.version = row.version ∧ Swapped w t row row1)) ∧
    (∀ c w t row tr r row1 tr1,
       leg2Loop fuel c w t row tr = some (r, row1, tr1) →
       (row1 = row ∧ (r = none → t.version ≠ row.version)) ∨
       (t.version = row.version ∧ Swapped w t row row1)) := by
  induction fuel with
  | zero =>
    constructor <;> intro c w t row tr r row1 tr1 h <;>
      simp [processLeg2, leg2Loop] at h
  | succ n ih =>
    obtain ⟨ihP, ihL⟩ := ih
    constructor
    · intro c w t row tr r row1 tr1 h
      rcases hb : leg2Body w t row tr with ⟨rb, rowb, trb⟩
      rcases leg2Body_spec w t row tr rb rowb trb hb with
        ⟨hrow, ⟨e, he⟩ | ⟨he, hne⟩⟩ | ⟨hok, hveq, hsw⟩
      · subst hrow; subst he
        simp only [processLeg2, hb, Option.some.injEq, Prod.mk.injEq] at h
        obtain ⟨rfl, rfl, rfl⟩ := h
        exact Or.inl ⟨rfl, fun h' => by simp at h'⟩
      · subst hrow; subst he
        simp only [processLeg2, hb, Option.some.injEq, Prod.mk.injEq] at h
        obtain ⟨rfl, rfl, rfl⟩ := h
        exact Or.inl ⟨rfl, fun _ => hne⟩
      · subst hok
        simp only [processLeg2, hb] at h
        rcases ihL c w t rowb trb r row1 tr1 h with ⟨hr1, _⟩ | ⟨hv2, hsw2⟩
        · exact Or.inr ⟨hveq, hr1 ▸ hsw⟩
        · obtain ⟨nx, _, hrowb⟩ := hsw
          rw [hrowb] at hv2
          simp only [swapRow] at hv2
          omega
    · intro c w t row tr r row1 tr1 h
      simp only [leg2Loop] at h
      split at h
      · simp only [Option.some.injEq, Prod.mk.injEq] at h
        obtain ⟨rfl, rfl, rfl⟩ := h
        exact Or.inl ⟨rfl, fun h' => by simp at h'⟩
      · rcases hp : processLeg2 n c w t row tr with _ | ⟨rp, rowp, trp⟩
        · rw [hp] at h; simp at h
        · rw [hp] at h
          rcases rp with _ | e
          · simp only [Option.some.injEq, Prod.mk.injEq] at h
            obtain ⟨rfl, rfl, rfl⟩ := h
            exact ihP c w t row tr none rowp trp hp
          · rcases ihP c w t row tr (some e) rowp trp hp with ⟨hr1, _⟩ | ⟨hv2, hsw2⟩
            · subst hr1
              exact ihL c w t rowp trp r row1 tr1 h
            · rcases ihL c w t rowp trp r row1 tr1 h with ⟨hr3, _⟩ | ⟨hv3, hsw3⟩
              · exact Or.inr ⟨hv2, hr3 ▸ hsw2⟩
              · obtain ⟨nx, _, hrowp⟩ := hsw2
                rw [hrowp] at hv3
                simp only [swapRow] at hv3
                omega

/-- Case analysis of `leg1Main` under a version-consistent snapshot: the
run either fails (store of interest untouched by it), completes the task
(vanished position), or checkpoints `LEG1_CLOSED` and bumps the local
version; the in-memory symbol and quantity never change. -/
theorem leg1Main_spec (w : World) (t : Task) (row : Row) (tr : Trace)
    (r : Option String) (t1 : Task) (row1 : Row) (tr1 : Trace)
    (h : leg1Main w t row tr = (r, t1, row1, tr1)) (hv : t.version = row.version) :
    t1.currentOptionSymbol = t.currentOptionSymbol ∧ t1.currentQty = t.currentQty ∧
    ((∃ e, r = some e) ∨
     (r = none ∧ row1.status = TaskState.completed ∧ t1.version = t.version ∧
        row1.version = row.version + 1) ∨
     (r = none ∧ row1.status = TaskState.leg1Closed ∧ t1.version = t.version + 1 ∧
        row1.version = row.version + 1)) := by
  cases hp : w.getPosition t.currentOptionSymbol with
  | error e =>
    simp only [leg1Main, hp, Prod.mk.injEq] at h
    obtain ⟨rfl, rfl, rfl, rfl⟩ := h
    exact ⟨rfl, rfl, Or.inl ⟨_, rfl⟩⟩
  | ok position =>
    by_cases hz : position.qty.isZero = true
    · simp only [leg1Main, hp, hz, if_true,
        updateTaskState_eq row TaskState.completed t.version w.now hv.symm,
        Prod.mk.injEq] at h
      obtain ⟨rfl, rfl, rfl, rfl⟩ := h
      exact ⟨rfl, rfl, Or.inr (Or.inl ⟨rfl, rfl, rfl, rfl⟩)⟩
    · cases hm : w.getMarkPrice t.currentOptionSymbol with
      | error e =>
        simp only [leg1Main, hp, hz, if_false, hm, Prod.mk.injEq] at h
        obtain ⟨rfl, rfl, rfl, rfl⟩ := h
        exact ⟨rfl, rfl, Or.inl ⟨_, rfl⟩⟩
      | ok markPrice =>
        cases hpo : w.placeOrder
            { symbol := t.currentOptionSymbol
              side := if position.side = "Buy" then "Sell" else "Buy"
              orderType := "Limit"
              qty := position.qty
              price := calculateSafeLimitPrice
                (if position.side = "Buy" then "Sell" else "Buy") markPrice
              timeInForce := "IOC"
              reduceOnly := true
              orderLinkID := "close-" ++ toString t.id ++ "-v" ++ toString t.version } with
        | error e =>
          simp only [leg1Main, hp, hz, if_false, hm, hpo, Prod.mk.injEq] at h
          obtain ⟨rfl, rfl, rfl, rfl⟩ := h
          refine ⟨?_, ?_, Or.inl ⟨_, rfl⟩⟩ <;> split <;> rfl
        | ok oid =>
          simp only [leg1Main, hp, hz, if_false, hm, hpo,
            updateTaskState_eq row TaskState.leg1Closed t.version w.now hv.symm,
            Prod.mk.injEq] at h
          obtain ⟨rfl, rfl, rfl, rfl⟩ := h
          refine ⟨?_, ?_, Or.inr (Or.inr ⟨rfl, rfl, ?_, rfl⟩)⟩ <;> split <;> rfl

/-- `processLeg1` under a version-consistent snapshot: the expiry gate
either completes the task or falls through to `leg1Main`; the in-memory
symbol and quantity are preserved in every outcome. -/
theorem processLeg1_spec (w : World) (t : Task) (row : Row) (tr : Trace)
    (r : Option String) (t1 : Task) (row1 : Row) (tr1 : Trace)
    (h : processLeg1 w t row tr = (r, t1, row1, tr1)) (hv : t.version = row.version) :
    t1.currentOptionSymbol = t.currentOptionSymbol ∧ t1.currentQty = t.currentQty ∧
    ((∃ e, r = some e) ∨
     (r = none ∧ row1.status = TaskState.completed ∧ t1.version = t.version ∧
        row1.version = row.version + 1) ∨
     (r = none ∧ row1.status = TaskState.leg1Closed ∧ t1.version = t.version + 1 ∧
        row1.version = row.version + 1)) := by
  have ht0 : (if t.targetSide = "" then { t with targetSide := "Sell" } else t).version
      = t.version := by split <;> rfl
  have ht0s : (if t.targetSide = "" then { t with targetSide := "Sell" } else t).currentOptionSymbol
      = t.currentOptionSymbol := by split <;> rfl
  have ht0q : (if t.targetSide = "" then { t with targetSide := "Sell" } else t).currentQty
      = t.currentQty := by split <;> rfl
  cases hx : parseExpirationFromSymbol t.currentOptionSymbol with
  | none =>
    simp only [processLeg1, hx] at h
    have := leg1Main_spec w _ row tr r t1 row1 tr1 h (by rw [ht0]; exact hv)
    rw [ht0s, ht0q, ht0] at this
    exact this
  | some expiryTime =>
    by_cases hexp : w.now > expiryTime + 5
    · simp only [processLeg1, hx, if_pos hexp,
        updateTaskState_eq row TaskState.completed t.version w.now hv.symm,
        Prod.mk.injEq] at h
      obtain ⟨rfl, rfl, rfl, rfl⟩ := h
      exact ⟨ht0s, ht0q, Or.inr (Or.inl ⟨rfl, rfl, ht0, rfl⟩)⟩
    · simp only [processLeg1, hx, if_neg hexp] at h
      have := leg1Main_spec w _ row tr r t1 row1 tr1 h (by rw [ht0]; exact hv)
      rw [ht0s, ht0q, ht0] at this
      exact this

/-- Post-state analysis of a nil-returning `ExecuteRoll`: the row is either
untouched, or `COMPLETED`, or the committed symbol swap (status `IDLE`, the
next-strike symbol, the snapshot quantity). -/
theorem executeRoll_ok_post_state (fuel : Nat) (c : Bool) (w : World) (t : Task)
    (row : Row) (tr : Trace) (p : Dec) (t1 : Task) (row1 : Row) (tr1 : Trace)
    (h : executeRoll fuel c w t row tr p = some (none, t1, row1, tr1)) :
    row1 = row ∨ row1.status = TaskState.completed ∨
    (∃ nx, nextSymbolOf w t.currentOptionSymbol = some nx ∧
       row1.status = TaskState.idle ∧ row1.symbol = nx ∧ row1.qty = t.currentQty) := by
  by_cases hst : t.status = TaskState.leg1Closed
  · rcases hp2 : processLeg2 fuel c w t row tr with _ | ⟨rp, rowp, trp⟩
    · rw [executeRoll, if_pos hst, hp2] at h
      exact Option.noConfusion h
    · have hLC := (leg2_row_cases fuel).1 c w t row tr rp rowp trp hp2
      rw [executeRoll, if_pos hst, hp2] at h
      simp only [Option.some.injEq, Prod.mk.injEq] at h
      obtain ⟨rfl, rfl, rfl, rfl⟩ := h
      rcases hLC with ⟨hr1, _⟩ | ⟨_, nx, hnx, hsw⟩
      · exact Or.inl hr1
      · exact Or.inr (Or.inr ⟨nx, hnx, by rw [hsw]; rfl, by rw [hsw]; rfl, by rw [hsw]; rfl⟩)
  · by_cases htr : t.shouldRoll p = true
    · by_cases hveq : row.version = t.version
      · rcases hl1 : processLeg1 w { t with version := t.version + 1 }
            { row with status := TaskState.rollInitiated, version := row.version + 1,
                       updatedAt := w.now } tr with ⟨r1, t2, row2, tr2⟩
        have hspec := processLeg1_spec w { t with version := t.version + 1 }
          { row with status := TaskState.rollInitiated, version := row.version + 1,
                     updatedAt := w.now } tr r1 t2 row2 tr2 hl1 (by simp; omega)
        obtain ⟨hsym, hqty, hcase⟩ := hspec
        rcases r1 with _ | e1
        · rcases hp2 : processLeg2 fuel c w t2 row2 tr2 with _ | ⟨rp, rowp, trp⟩
          · simp [executeRoll, hst, htr,
              updateTaskState_eq row TaskState.rollInitiated t.version w.now hveq,
              hl1, hp2] at h
          · have hLC := (leg2_row_cases fuel).1 c w t2 row2 tr2 rp rowp trp hp2
            rcases rp with _ | e2
            · simp [executeRoll, hst, htr,
                updateTaskState_eq row TaskState.rollInitiated t.version w.now hveq,
                hl1, hp2] at h
              obtain ⟨rfl, rfl, rfl⟩ := h
              rcases hcase with ⟨e, habs⟩ | ⟨_, hcomp, hver, hrowver⟩ |
                  ⟨_, hleg1, hver, hrowver⟩
              · simp at habs
              · rcases hLC with ⟨hr1, _⟩ | ⟨_, nx, hnx, hsw⟩
                · exact Or.inr (Or.inl (hr1 ▸ hcomp))
                · refine Or.inr (Or.inr ⟨nx, ?_, by rw [hsw]; rfl, by rw [hsw]; rfl, ?_⟩)
                  · rw [← hsym]; exact hnx
                  · rw [hsw]; simpa [swapRow] using hqty
              · rcases hLC with ⟨hr1, himp⟩ | ⟨_, nx, hnx, hsw⟩
                · exfalso
                  apply himp rfl
                  simp at hver hrowver
                  omega
                · refine Or.inr (Or.inr ⟨nx, ?_, by rw [hsw]; rfl, by rw [hsw]; rfl, ?_⟩)
                  · rw [← hsym]; exact hnx
                  · rw [hsw]; simpa [swapRow] using hqty
            · simp [executeRoll, hst, htr,
                updateTaskState_eq row TaskState.rollInitiated t.version w.now hveq,
                hl1, hp2] at h
        · simp [executeRoll, hst, htr,
            updateTaskState_eq row TaskState.rollInitiated t.version w.now hveq,
            hl1] at h
      · simp [executeRoll, hst, htr,
          updateTaskState_ne row TaskState.rollInitiated t.version w.now hveq] at h
        obtain ⟨rfl, rfl, rfl⟩ := h
        exact Or.inl rfl
    · simp [executeRoll, hst, htr] at h
      obtain ⟨rfl, rfl, rfl⟩ := h
      exact Or.inl rfl

/-! ## Claim theorems -/

/-- C1 (code_bug evidence): in the normal saga path, once the
`LEG1_CLOSED` checkpoint has been persisted (first conjunct), the very
first leg-2 failure — here a failing option-chain query — makes
`ExecuteRoll` persist `FAILED` via `UpdateTaskState` and return the fatal
error (second conjunct), instead of the sleep-and-retry loop the spec
mandates. -/
theorem leg2_failure_after_checkpoint_marks_failed :
    processLeg1 chainFailWorld { happyTask with version := 2 }
        { happyRow with status := TaskState.rollInitiated, version := 2,
                        updatedAt := dateToMinutes 2025 12 1 } [] =
      (none, { happyTask with version := 3 },
        { happyRow with status := TaskState.leg1Closed, version := 3,
                        updatedAt := dateToMinutes 2025 12 1 },
        [{ symbol := oldSymbol, side := "Buy", orderType := "Limit", qty := ⟨1, 1⟩,
           price := ⟨6000, 1⟩, timeInForce := "IOC", reduceOnly := true,
           orderLinkID := "close-1-v2" }]) ∧
    executeRoll 5 false chainFailWorld happyTask happyRow [] ⟨100500, 0⟩ =
      some (some ("FATAL: Leg 2 failed after Leg 1 closed! Position is naked. Err: " ++
              "failed to fetch option chain: boom"),
        { happyTask with version := 3 },
        { happyRow with status := TaskState.failed, version := 4,
                        updatedAt := dateToMinutes 2025 12 1 },
        [{ symbol := oldSymbol, side := "Buy", orderType := "Limit", qty := ⟨1, 1⟩,
           price := ⟨6000, 1⟩, timeInForce := "IOC", reduceOnly := true,
           orderLinkID := "close-1-v2" }]) :=
  ⟨by decide, by decide⟩

/-- C2 (code_bug evidence): `FindNextStrike` never consults the `C`/`P`
side.  A Put at strike 3000 in the sorted chain {2000, 3000, 4000} is sent
to the strike *above* (4000), not the strike immediately below (2000); a
Put whose strike is absent falls back to the nearest strike strictly
*greater*, not strictly less. -/
theorem findNextStrike_ignores_put_direction :
    findNextStrike ⟨"ETH-30JAN26-3000-P", "ETH", "30JAN26", ⟨3000, 0⟩, "P"⟩
        [⟨2000, 0⟩, ⟨3000, 0⟩, ⟨4000, 0⟩] = .ok "ETH-30JAN26-4000-P" ∧
    findNextStrike ⟨"ETH-30JAN26-3100-P", "ETH", "30JAN26", ⟨3100, 0⟩, "P"⟩
        [⟨2000, 0⟩, ⟨3000, 0⟩, ⟨4000, 0⟩] = .ok "ETH-30JAN26-4000-P" ∧
    ("ETH-30JAN26-4000-P" : String) ≠ "ETH-30JAN26-2000-P" :=
  ⟨by decide, by decide, by decide⟩

/-- C3 (counterexample): a `LEG1_CLOSED` recovery run whose snapshot
version is stale places the opening order, has its symbol-swap update fail
the version check, swallows the failure, and returns nil — leaving the row
in `LEG1_CLOSED` after an `Ok` return with no cancellation involved. -/
theorem ok_return_leaves_leg1Closed_without_cancellation :
    executeRoll 5 false happyWorld staleTask staleRow [] ⟨0, 0⟩ =
      some (none, staleTask, staleRow,
        [{ symbol := newSymbol, side := "Sell", orderType := "Limit", qty := ⟨1, 1⟩,
           price := ⟨2400, 1⟩, timeInForce := "IOC", reduceOnly := false,
           orderLinkID := "open-1-v3" }]) ∧
    staleRow.status = TaskState.leg1Closed ∧ staleTask.version ≠ staleRow.version :=
  ⟨by decide, by decide, by decide⟩

/-- C4 (counterexample): in the happy path of scenario 1 the saga submits
*three* order requests (the open twice), the open order carries
`open-1-v3` (not `open-1-v4`), and the terminal row has version 4 (not 5). -/
theorem happy_path_claimed_ids_and_version_false :
    executeRoll 5 false happyWorld happyTask happyRow [] ⟨100500, 0⟩ =
      some (none, { happyTask with version := 3 },
        { happyRow with symbol := newSymbol, status := TaskState.idle, version := 4,
                        updatedAt := dateToMinutes 2025 12 1 },
        [{ symbol := oldSymbol, side := "Buy", orderType := "Limit", qty := ⟨1, 1⟩,
           price := ⟨6000, 1⟩, timeInForce := "IOC", reduceOnly := true,
           orderLinkID := "close-1-v2" },
         { symbol := newSymbol, side := "Sell", orderType := "Limit", qty := ⟨1, 1⟩,
           price := ⟨2400, 1⟩, timeInForce := "IOC", reduceOnly := false,
           orderLinkID := "open-1-v3" },
         { symbol := newSymbol, side := "Sell", orderType := "Limit", qty := ⟨1, 1⟩,
           price := ⟨2400, 1⟩, timeInForce := "IOC", reduceOnly := false,
           orderLinkID := "open-1-v3" }]) ∧
    ({ happyRow with symbol := newSymbol, status := TaskState.idle, version := 4,
                     updatedAt := dateToMinutes 2025 12 1 } : Row).version ≠ 5 ∧
    orderIds
        [{ symbol := oldSymbol, side := "Buy", orderType := "Limit", qty := ⟨1, 1⟩,
           price := ⟨6000, 1⟩, timeInForce := "IOC", reduceOnly := true,
           orderLinkID := "close-1-v2" },
         { symbol := newSymbol, side := "Sell", orderType := "Limit", qty := ⟨1, 1⟩,
           price := ⟨2400, 1⟩, timeInForce := "IOC", reduceOnly := false,
           orderLinkID := "open-1-v3" },
         { symbol := newSymbol, side := "Sell", orderType := "Limit", qty := ⟨1, 1⟩,
           price := ⟨2400, 1⟩, timeInForce := "IOC", reduceOnly := false,
           orderLinkID := "open-1-v3" }] ≠ ["close-1-v2", "open-1-v4"] :=
  ⟨by decide, by decide, by decide⟩

/-- C4 (amended): the actual happy-path outcome of scenario 1 — terminal
row `BTC-26DEC25-101000-C`, `IDLE`, version 4, qty 0.1, after order
submissions `close-1-v2`, `open-1-v3`, `open-1-v3` (the open duplicated by
the post-success retry loop with the identical client order id). -/
theorem happy_path_actual_outcome :
    executeRoll 5 false happyWorld happyTask happyRow [] ⟨100500, 0⟩ =
      some (none, { happyTask with version := 3 },
        { happyRow with symbol := newSymbol, status := TaskState.idle, version := 4,
                        updatedAt := dateToMinutes 2025 12 1 },
        [{ symbol := oldSymbol, side := "Buy", orderType := "Limit", qty := ⟨1, 1⟩,
           price := ⟨6000, 1⟩, timeInForce := "IOC", reduceOnly := true,
           orderLinkID := "close-1-v2" },
         { symbol := newSymbol, side := "Sell", orderType := "Limit", qty := ⟨1, 1⟩,
           price := ⟨2400, 1⟩, timeInForce := "IOC", reduceOnly := false,
           orderLinkID := "open-1-v3" },
         { symbol := newSymbol, side := "Sell", orderType := "Limit", qty := ⟨1, 1⟩,
           price := ⟨2400, 1⟩, timeInForce := "IOC", reduceOnly := false,
           orderLinkID := "open-1-v3" }]) ∧
    ({ happyRow with symbol := newSymbol, status := TaskState.idle, version := 4,
                     updatedAt := dateToMinutes 2025 12 1 } : Row).qty = ⟨1, 1⟩ :=
  ⟨by decide, by decide⟩

/-- C5: whenever the straight-line leg-2 pass fully succeeds (parse, chain,
next strike, mark price, order, committed swap), `processLeg2` does not
return: the retry loop re-invokes it, the identical opening request (same
`open-{id}-v{version}` client id) is submitted a second time, the repeated
symbol-swap update fails its version check and is swallowed, and only then
does the outer call return nil. -/
theorem leg2_success_resubmits_open_order (n : Nat) (w : World) (t : Task) (row : Row)
    (tr : Trace) (os : OptionSymbol) (chain : List Dec) (nx : String) (m : Dec) (oid : String)
    (h1 : parseOptionSymbol t.currentOptionSymbol = .ok os)
    (h2 : w.getOptionStrikes os.baseCoin os.expiry = .ok chain)
    (h3 : findNextStrike os chain = .ok nx)
    (h4 : w.getMarkPrice nx = .ok m)
    (h5 : w.placeOrder (mkOpenReq t nx m) = .ok oid)
    (h6 : row.version = t.version) :
    processLeg2 (n + 3) false w t row tr =
      some (none, swapRow w t row nx, tr ++ [mkOpenReq t nx m, mkOpenReq t nx m]) ∧
    (updateTaskSymbol (swapRow w t row nx) nx t.currentQty t.version w.now).1 =
      some RepoErr.contention := by
  have hne : (swapRow w t row nx).version ≠ t.version := by
    simp only [swapRow]
    omega
  have hbody1 : leg2Body w t row tr =
      (.ok true, swapRow w t row nx, tr ++ [mkOpenReq t nx m]) := by
    simp only [leg2Body, h1, h2, h3, h4, h5,
      updateTaskSymbol_eq row nx t.currentQty t.version w.now h6]
    simp [swapRow]
  have hbody2 : leg2Body w t (swapRow w t row nx) (tr ++ [mkOpenReq t nx m]) =
      (.ok false, swapRow w t row nx, (tr ++ [mkOpenReq t nx m]) ++ [mkOpenReq t nx m]) := by
    simp only [leg2Body, h1, h2, h3, h4, h5,
      updateTaskSymbol_ne (swapRow w t row nx) nx t.currentQty t.version w.now hne]
  refine ⟨?_, ?_⟩
  · show processLeg2 (n + 2 + 1) false w t row tr = _
    simp only [processLeg2, hbody1, leg2Loop, Bool.false_eq_true, if_false, hbody2]
    simp [List.append_assoc]
  · rw [updateTaskSymbol_ne (swapRow w t row nx) nx t.currentQty t.version w.now hne]

/-- C5 witness: the duplicated submission on the concrete scenario-1
recovery run. -/
theorem leg2_success_resubmits_open_order_witness :
    processLeg2 3 false happyWorld leg2Task leg2Row [] =
      some (none, swapRow happyWorld leg2Task leg2Row newSymbol,
        [mkOpenReq leg2Task newSymbol ⟨300, 0⟩, mkOpenReq leg2Task newSymbol ⟨300, 0⟩]) ∧
    (updateTaskSymbol (swapRow happyWorld leg2Task leg2Row newSymbol) newSymbol
        leg2Task.currentQty leg2Task.version happyWorld.now).1 = some RepoErr.contention :=
  leg2_success_resubmits_open_order 0 happyWorld leg2Task leg2Row []
    ⟨oldSymbol, "BTC", "26DEC25", ⟨100000, 0⟩, "C"⟩
    [⟨99000, 0⟩, ⟨100000, 0⟩, ⟨101000, 0⟩, ⟨102000, 0⟩] newSymbol ⟨300, 0⟩
    "exchange-order-id"
    (by decide) (by decide) (by decide) (by decide) (by decide) (by decide)

/-- C6: `UpdateTaskState` succeeds exactly when the observed version
matches the row's; on success it sets the status, increments the version by
exactly 1 and stamps `updated_at`; on mismatch it returns the distinguished
contention error and leaves the row entirely unchanged. -/
theorem updateTaskState_spec (row : Row) (ns : TaskState) (v now : Int) :
    (row.version = v →
       updateTaskState row ns v now =
         (none, { row with status := ns, version := row.version + 1, updatedAt := now })) ∧
    (row.version ≠ v →
       updateTaskState row ns v now = (some RepoErr.contention, row)) :=
  ⟨fun h => updateTaskState_eq row ns v now h,
   fun h => updateTaskState_ne row ns v now h⟩

/-- C6 witness: both branches at a concrete row. -/
theorem updateTaskState_spec_witness :
    ((⟨"s", ⟨1, 0⟩, TaskState.idle, 1, none, 0⟩ : Row).version = 1 ∧
     updateTaskState ⟨"s", ⟨1, 0⟩, TaskState.idle, 1, none, 0⟩ TaskState.rollInitiated 1 7 =
       (none, ⟨"s", ⟨1, 0⟩, TaskState.rollInitiated, 2, none, 7⟩)) ∧
    ((⟨"s", ⟨1, 0⟩, TaskState.idle, 1, none, 0⟩ : Row).version ≠ 2 ∧
     updateTaskState ⟨"s", ⟨1, 0⟩, TaskState.idle, 1, none, 0⟩ TaskState.rollInitiated 2 7 =
       (some RepoErr.contention, ⟨"s", ⟨1, 0⟩, TaskState.idle, 1, none, 0⟩)) :=
  ⟨⟨by decide, (updateTaskState_spec ⟨"s", ⟨1, 0⟩, TaskState.idle, 1, none, 0⟩
      TaskState.rollInitiated 1 7).1 (by decide)⟩,
   ⟨by decide, (updateTaskState_spec ⟨"s", ⟨1, 0⟩, TaskState.idle, 1, none, 0⟩
      TaskState.rollInitiated 2 7).2 (by decide)⟩⟩

/-- C7: `RegisterError` classifies by message — transient patterns
(`timeout`, `deadline exceeded`, `502 Bad Gateway`, `504 Gateway Timeout`)
rewind the status to `IDLE`, anything else sets `FAILED`; the message is
stored in `last_error`; the update never touches the version and applies
identically whatever the row's version is. -/
theorem registerError_spec (row : Row) (msg : String) (now v : Int) :
    (isTransientMsg msg = true → (registerError row msg now).status = TaskState.idle) ∧
    (isTransientMsg msg = false → (registerError row msg now).status = TaskState.failed) ∧
    (registerError row msg now).lastError = some msg ∧
    (registerError row msg now).version = row.version ∧
    registerError { row with version := v } msg now =
      { registerError row msg now with version := v } := by
  refine ⟨fun h => ?_, fun h => ?_, rfl, rfl, rfl⟩ <;> simp [registerError, h]

/-- C7 witness: a transient and a fatal message at a concrete row. -/
theorem registerError_spec_witness :
    isTransientMsg "deadline exceeded" = true ∧
    (registerError ⟨"s", ⟨1, 0⟩, TaskState.rollInitiated, 3, none, 0⟩
        "deadline exceeded" 9).status = TaskState.idle ∧
    isTransientMsg "insufficient margin" = false ∧
    (registerError ⟨"s", ⟨1, 0⟩, TaskState.rollInitiated, 3, none, 0⟩
        "insufficient margin" 9).status = TaskState.failed :=
  ⟨by decide,
   (registerError_spec ⟨"s", ⟨1, 0⟩, TaskState.rollInitiated, 3, none, 0⟩
      "deadline exceeded" 9 0).1 (by decide),
   by decide,
   (registerError_spec ⟨"s", ⟨1, 0⟩, TaskState.rollInitiated, 3, none, 0⟩
      "insufficient margin" 9 0).2.1 (by decide)⟩

/-- C8 (code_bug evidence): with the held option expired (26 Dec 2025,
observed 11 Oct 2026), the saga transitions the row to `COMPLETED` without
submitting any *close* order — but then proceeds into leg 2 anyway and
submits an *opening* order (`open-1-v2`), because `processLeg1` returns nil
after the completion update.  The canonical expiry instant is 08:00 UTC of
the parsed day. -/
theorem expiry_gate_completes_but_still_opens_leg2 :
    parseExpirationFromSymbol oldSymbol = some (dateToMinutes 2025 12 26 + 8 * 60) ∧
    executeRoll 5 false expiredWorld happyTask happyRow [] ⟨100500, 0⟩ =
      some (none, { happyTask with version := 2 },
        { happyRow with status := TaskState.completed, version := 3,
                        updatedAt := dateToMinutes 2026 10 11 },
        [{ symbol := newSymbol, side := "Sell", orderType := "Limit", qty := ⟨1, 1⟩,
           price := ⟨2400, 1⟩, timeInForce := "IOC", reduceOnly := false,
           orderLinkID := "open-1-v2" }]) ∧
    orderIds
        [{ symbol := newSymbol, side := "Sell", orderType := "Limit", qty := ⟨1, 1⟩,
           price := ⟨2400, 1⟩, timeInForce := "IOC", reduceOnly := false,
           orderLinkID := "open-1-v2" }] = ["open-1-v2"] :=
  ⟨by decide, by decide, by decide⟩

/-- C9: the aggressive limit price is exactly `mark × 1.20` for a `Buy` and
exactly `mark × 0.80` for a `Sell`, as exact decimal (rational) values with
no floating-point rounding; both `processLeg1`'s close and `processLeg2`'s
open compose their orders through this function. -/
theorem calculateSafeLimitPrice_exact (markPrice : Dec) :
    (calculateSafeLimitPrice "Buy" markPrice).val = markPrice.val * (12 / 10) ∧
    (calculateSafeLimitPrice "Sell" markPrice).val = markPrice.val * (8 / 10) := by
  have hb : Dec.add (Dec.ofInt 1) ⟨2, 1⟩ = ⟨12, 1⟩ := rfl
  have hs : Dec.sub (Dec.ofInt 1) ⟨2, 1⟩ = ⟨8, 1⟩ := rfl
  constructor
  · show (Dec.mul markPrice (Dec.add (Dec.ofInt 1) ⟨2, 1⟩)).val = _
    rw [hb]
    simp only [Dec.mul, Dec.val]
    push_cast
    rw [pow_succ]
    field_simp
  · show (Dec.mul markPrice (Dec.sub (Dec.ofInt 1) ⟨2, 1⟩)).val = _
    rw [hs]
    simp only [Dec.mul, Dec.val]
    push_cast
    rw [pow_succ]
    field_simp

/-- C10: a ticker message with a non-empty topic and at least one data
entry yields the event `(symbol, price, now)` where the price is the first
entry's mark price when non-zero and its last price otherwise. -/
theorem extractPriceEvent_spec (topic : String) (d : TickerData) (rest : List TickerData)
    (now : Int) (h : topic ≠ "") :
    extractPriceEvent topic (d :: rest) now =
      some { symbol := d.symbol,
             price := if d.markPrice.isZero then d.lastPrice else d.markPrice,
             time := now, source := "bybit-linear-ws" } ∧
    (d.markPrice.isZero = false →
       extractPriceEvent topic (d :: rest) now =
         some ⟨d.symbol, d.markPrice, now, "bybit-linear-ws"⟩) ∧
    (d.markPrice.isZero = true →
       extractPriceEvent topic (d :: rest) now =
         some ⟨d.symbol, d.lastPrice, now, "bybit-linear-ws"⟩) := by
  refine ⟨by simp [extractPriceEvent, h], fun hz => ?_, fun hz => ?_⟩ <;>
    simp [extractPriceEvent, h, hz]

/-- C10 witness: a concrete linear-ticker entry with a non-zero mark. -/
theorem extractPriceEvent_spec_witness :
    ("tickers.BTCUSDT" : String) ≠ "" ∧
    extractPriceEvent "tickers.BTCUSDT" [⟨"BTCUSDT", ⟨99, 0⟩, ⟨100, 0⟩⟩] 42 =
      some ⟨"BTCUSDT", ⟨100, 0⟩, 42, "bybit-linear-ws"⟩ :=
  ⟨by decide,
   (extractPriceEvent_spec "tickers.BTCUSDT" ⟨"BTCUSDT", ⟨99, 0⟩, ⟨100, 0⟩⟩ [] 42
      (by decide)).2.1 (by decide)⟩

/-- C3 witness (for the amended post-state theorem): the scenario-1 happy
path instantiates the disjunction — its terminal row is the committed
symbol swap. -/
theorem executeRoll_ok_post_state_witness :
    ({ happyRow with symbol := newSymbol, status := TaskState.idle, version := 4,
                     updatedAt := dateToMinutes 2025 12 1 } : Row) = happyRow ∨
    ({ happyRow with symbol := newSymbol, status := TaskState.idle, version := 4,
                     updatedAt := dateToMinutes 2025 12 1 } : Row).status =
      TaskState.completed ∨
    (∃ nx, nextSymbolOf happyWorld happyTask.currentOptionSymbol = some nx ∧
       ({ happyRow with symbol := newSymbol, status := TaskState.idle, version := 4,
                        updatedAt := dateToMinutes 2025 12 1 } : Row).status =
         TaskState.idle ∧
       ({ happyRow with symbol := newSymbol, status := TaskState.idle, version := 4,
                        updatedAt := dateToMinutes 2025 12 1 } : Row).symbol = nx ∧
       ({ happyRow with symbol := newSymbol, status := TaskState.idle, version := 4,
                        updatedAt := dateToMinutes 2025 12 1 } : Row).qty =
         happyTask.currentQty) :=
  executeRoll_ok_post_state 5 false happyWorld happyTask happyRow [] ⟨100500, 0⟩
    { happyTask with version := 3 }
    { happyRow with symbol := newSymbol, status := TaskState.idle, version := 4,
                    updatedAt := dateToMinutes 2025 12 1 }
    [{ symbol := oldSymbol, side := "Buy", orderType := "Limit", qty := ⟨1, 1⟩,
       price := ⟨6000, 1⟩, timeInForce := "IOC", reduceOnly := true,
       orderLinkID := "close-1-v2" },
     { symbol := newSymbol, side := "Sell", orderType := "Limit", qty := ⟨1, 1⟩,
       price := ⟨2400, 1⟩, timeInForce := "IOC", reduceOnly := false,
       orderLinkID := "open-1-v3" },
     { symbol := newSymbol, side := "Sell", orderType := "Limit", qty := ⟨1, 1⟩,
       price := ⟨2400, 1⟩, timeInForce := "IOC", reduceOnly := false,
       orderLinkID := "open-1-v3" }]
    (by decide)

end Roller
